import Mathlib

/-!
Shallow embedding of the trybuild test-orchestration core (src/lib.rs,
src/diff.rs, src/flock.rs, src/env.rs, src/error.rs), together with
theorems that settle the specification claims about it.

External effects (the compiler-driver process, the filesystem, the glob
library, the dissimilar diff routine) are passed in explicitly as oracle
parameters, so every definition is an executable Lean function whose
behaviour on a concrete oracle mirrors one run of the Rust code.
-/

namespace Trybuild

/-- `Expected` from src/lib.rs: the declared expectation of a fixture. -/
inductive Expected
  | Pass
  | CompileFail
deriving DecidableEq

/-- `Update` from src/env.rs: the snapshot update policy. -/
inductive Update
  | Wip
  | Overwrite
deriving DecidableEq

/-- `Outcome` from src/lib.rs. -/
inductive Outcome
  | Passed
  | CreatedWip
deriving DecidableEq

/-- `Error` from src/error.rs, restricted to the variants reachable from the
orchestration core.  `Error::Io(_)` is rendered as `IoError`; variants carrying
`io::Error` payloads drop the payload (it never influences control flow). -/
inductive Error
  | Cargo
  | CargoFail
  | GlobFail
  | IoError
  | Mismatch
  | Open (path : String)
  | ReadStderr
  | RunFailed
  | ShouldNotHaveCompiled
  | WriteStderr
deriving DecidableEq

/-- `Test` from src/lib.rs.  Paths are modelled as UTF-8 strings (the code
only treats a path specially when `to_str()` succeeds). -/
structure Test where
  path : String
  expected : Expected
deriving DecidableEq

/-- `ExpandedTest` from src/lib.rs. -/
structure ExpandedTest where
  name : String
  test : Test
  error : Option Error
  is_from_glob : Bool
deriving DecidableEq

/-- `Report` from src/lib.rs. -/
structure Report where
  failures : Nat
  created_wip : Nat
deriving DecidableEq

/-- `Project` from src/lib.rs (the `dir` field, an absolute directory used
only for display and for the dead `path_map` in `run_all`, is omitted). -/
structure Project where
  has_pass : Bool
  update : Update
  has_compile_fail : Bool
  keep_going : Bool
deriving DecidableEq

/-- The captured output of one compiler-driver invocation
(`std::process::Output`): exit success flag, stdout, stderr. -/
structure BuildOutput where
  success : Bool
  stdout : String
  stderr : String
deriving DecidableEq

/-- The filesystem as seen by the orchestration core. `writeOk p` (resp.
`mkdirOk p`) tells whether `fs::write` (resp. `fs::create_dir_all`) at `p`
succeeds; the contents written are reported in the write traces instead. -/
structure Fs where
  fileExists : String → Bool
  read : String → Option String
  writeOk : String → Bool
  mkdirOk : String → Bool

/-- The external collaborators of one run: the filesystem, the compiler
driver (`zxc::build_test`; `none` models a spawn failure, mapped to
`Error::Cargo`), artifact execution (`zxc::run_test`; `some b` is the
artifact's exit success flag), and the glob library. -/
structure Oracle where
  fs : Fs
  build : String → String → String → Option BuildOutput
  runArtifact : String → Option Bool
  globFn : String → Except Error (List String)

/-- One `zxc::build_test` invocation recorded during a run:
test path, unique output name, codegen backend. -/
inductive Event
  | Build (path : String) (name : String) (codegen : String)
deriving DecidableEq

/-! ### String / path helpers -/

/-- `str::replace("\r\n", "\n")` on the underlying character list:
replace each CRLF pair by LF, left to right, non-overlapping. -/
def replaceCrlfChars : List Char → List Char
  | [] => []
  | '\r' :: '\n' :: rest => '\n' :: replaceCrlfChars rest
  | c :: rest => c :: replaceCrlfChars rest

/-- `String::replace("\r\n", "\n")` as used in `check_compile_fail`. -/
def replaceCrlf (s : String) : String := ⟨replaceCrlfChars s.data⟩

/-- The file-name component of a unix-style path (`Path::file_name`). -/
def fileName (p : String) : String := ⟨(p.data.reverse.takeWhile (· ≠ '/')).reverse⟩

/-- Drop a trailing `.ext` from a file name, if any (helper for
`Path::with_extension`). -/
def stripExt (name : String) : String :=
  let r := name.data.reverse
  if r.contains '.' then ⟨(((r.dropWhile (· ≠ '.')).drop 1)).reverse⟩ else name

/-- `Path::with_extension` for the unix-style UTF-8 paths this model uses:
replace the file name's extension (or append one). -/
def withExtension (p ext : String) : String :=
  let file := fileName p
  (p.dropRight file.length) ++ stripExt file ++ "." ++ ext

/-- `format!("trybuild{:03}", index)`: the ordinal artifact name. -/
def mkName (index : Nat) : String :=
  "trybuild" ++
    (if index < 10 then "00" ++ toString index
     else if index < 100 then "0" ++ toString index
     else toString index)

/-! ### DiffEngine (src/diff.rs) -/

/-- `dissimilar::Chunk`. -/
inductive Chunk
  | Equal (s : String)
  | Delete (s : String)
  | Insert (s : String)
deriving DecidableEq

/-- The `common_len` accumulation loop of `Diff::compute`: total byte length
of the chunks common to both sides. -/
def chunksCommonLen : List Chunk → Nat
  | [] => 0
  | Chunk.Equal s :: rest => s.utf8ByteSize + chunksCommonLen rest
  | _ :: rest => chunksCommonLen rest

/-- `Diff` from src/diff.rs. -/
structure Diff where
  expected : String
  actual : String
  diff : List Chunk
deriving DecidableEq

/-- `Diff::compute` from src/diff.rs.  The external comparison routine
`panic::catch_unwind(|| dissimilar::diff(expected, actual))` is passed in as
`dissimilarResult` (`none` models a caught panic). -/
def Diff.compute (expected actual : String) (dissimilarResult : Option (List Chunk)) :
    Option Diff :=
  if expected.utf8ByteSize + actual.utf8ByteSize > 2048 then none
  else
    match dissimilarResult with
    | none => none
    | some diff =>
      let common_len := chunksCommonLen diff
      let bigger_len := max expected.utf8ByteSize actual.utf8ByteSize
      if ¬ (5 * common_len ≥ 4 * bigger_len) then none
      else some ⟨expected, actual, diff⟩

/-! ### Lock acquisition (src/flock.rs) -/

/-- Result of one `OpenOptions::create_new` attempt in `flock::create`. -/
inductive CreateAttempt
  | Created
  | AlreadyExists
  | OtherError
deriving DecidableEq

/-- Result of the `fs::metadata(path)` / `metadata.modified()` probe in
`flock::create`; `Found t` carries the modification time in milliseconds. -/
inductive MetaResult
  | Found (modified : Int)
  | NotFound
  | MetaError
  | NoMtime
deriving DecidableEq

/-- The action one iteration of the `flock::create` loop decides on. -/
inductive LockAction
  | Acquired
  | GiveUp
  | RetryNow
  | Steal
  | SleepRetry (ms : Nat)
deriving DecidableEq

/-- One iteration of the loop in `flock::create` (src/flock.rs lines
90-128), as a decision function of the create attempt's result, the
metadata probe's result and the current time in milliseconds. -/
def flockCreateStep (attempt : CreateAttempt) (meta : MetaResult) (now : Int) :
    LockAction :=
  match attempt with
  | .Created => .Acquired
  | .OtherError => .GiveUp
  | .AlreadyExists =>
    match meta with
    | .NotFound => .RetryNow
    | .MetaError => .GiveUp
    | .NoMtime => .GiveUp
    | .Found modified =>
      let considered_stale := now - 1500
      let considered_future := now + 1500
      if modified < considered_stale ∨ considered_future < modified then .Steal
      else .SleepRetry 500

/-! ### OutcomeEngine (src/lib.rs, `impl Test`) -/

/-- `check_exists` from src/lib.rs: `Ok(())` when the path exists, otherwise
the fallback `File::open` fails with `Error::Open`. -/
def check_exists (fs : Fs) (path : String) : Except Error Unit :=
  if fs.fileExists path then .ok () else .error (.Open path)

/-- `Test::check_pass` from src/lib.rs.  The `variations` (stderr) and build
stdout arguments only feed the Presenter, so they are dropped here;
`runArtifact` models `zxc::run_test` (`none` = spawn failure). -/
def Test.check_pass (o : Oracle) (name : String) (success : Bool) :
    Except Error Outcome :=
  if !success then .error .CargoFail
  else
    match o.runArtifact name with
    | none => .error .Cargo
    | some ok => if ok then .ok .Passed else .error .RunFailed

/-- `Test::check_compile_fail` from src/lib.rs.  Returns the outcome together
with the trace of `fs::write` calls performed (path, contents), in order. -/
def Test.check_compile_fail (fs : Fs) (upd : Update) (t : Test)
    (success : Bool) (variations : String) :
    Except Error Outcome × List (String × String) :=
  if success then (.error .ShouldNotHaveCompiled, [])
  else
    let stderr_path := withExtension t.path "stderr"
    if !(fs.fileExists stderr_path) then
      match upd with
      | .Wip =>
        if fs.mkdirOk "wip" then
          if fs.writeOk "wip/.gitignore" then
            let stderr_name := fileName stderr_path
            let wip_path := "wip/" ++ stderr_name
            if fs.writeOk wip_path then
              (.ok .CreatedWip, [("wip/.gitignore", "*\n"), (wip_path, variations)])
            else (.error .WriteStderr, [("wip/.gitignore", "*\n")])
          else (.error .IoError, [])
        else (.error .IoError, [])
      | .Overwrite =>
        if fs.writeOk stderr_path then (.ok .Passed, [(stderr_path, variations)])
        else (.error .WriteStderr, [])
    else
      match fs.read stderr_path with
      | none => (.error .ReadStderr, [])
      | some content =>
        let expected := replaceCrlf content
        if variations = expected then (.ok .Passed, [])
        else
          match upd with
          | .Wip => (.error .Mismatch, [])
          | .Overwrite =>
            if fs.writeOk stderr_path then (.ok .Passed, [(stderr_path, variations)])
            else (.error .WriteStderr, [])

/-- `Test::check` from src/lib.rs: dispatch on the declared expectation,
handing over the exit-success flag and the captured stderr (`variations`). -/
def Test.check (o : Oracle) (upd : Update) (t : Test) (name : String)
    (success : Bool) (variations : String) :
    Except Error Outcome × List (String × String) :=
  match t.expected with
  | .Pass => (Test.check_pass o name success, [])
  | .CompileFail => Test.check_compile_fail o.fs upd t success variations

/-- `Test::run` from src/lib.rs (the individual-test path).  Note the source
constructs `Stderr { success: false, stderr: output.stderr }` — the driver's
actual exit status is discarded and `false` is handed to `check`
(src/lib.rs line 154); the embedding reproduces that literally. -/
def Test.run (o : Oracle) (upd : Update) (t : Test) (name codegen : String) :
    Except Error Outcome × List (String × String) :=
  match check_exists o.fs t.path with
  | .error e => (.error e, [])
  | .ok _ =>
    match o.build t.path name codegen with
    | none => (.error .Cargo, [])
    | some output => Test.check o upd t name false output.stderr

/-! ### TestSetExpander (src/lib.rs, `ExpandedTestSet` and `expand_globs`) -/

/-- `HashMap::get` on the path-to-index map, modelled as an association list
where the most recent `insert` shadows older entries (first match wins). -/
def lookupIndex : List (String × Nat) → String → Option Nat
  | [], _ => none
  | (q, i) :: rest, p => if q = p then some i else lookupIndex rest p

/-- `ExpandedTestSet` from src/lib.rs. -/
structure ExpandedTestSet where
  vec : List ExpandedTest
  path_to_index : List (String × Nat)

/-- `ExpandedTestSet::new`. -/
def ExpandedTestSet.new : ExpandedTestSet := ⟨[], []⟩

/-- The fall-through tail of `ExpandedTestSet::insert`: assign the ordinal
name from the current length, record the index, push the entry. -/
def ExpandedTestSet.push (s : ExpandedTestSet) (test : Test) (error : Option Error)
    (is_from_glob : Bool) : ExpandedTestSet :=
  let index := s.vec.length
  { vec := s.vec ++ [⟨mkName index, test, error, is_from_glob⟩],
    path_to_index := (test.path, index) :: s.path_to_index }

/-- `ExpandedTestSet::insert` from src/lib.rs: if the path is already mapped
and the mapped entry came from a glob, only overwrite its stored expectation;
otherwise append a fresh entry. -/
def ExpandedTestSet.insert (s : ExpandedTestSet) (test : Test) (error : Option Error)
    (is_from_glob : Bool) : ExpandedTestSet :=
  match lookupIndex s.path_to_index test.path with
  | some i =>
    match s.vec[i]? with
    | some prev =>
      if prev.is_from_glob then
        { s with
          vec := s.vec.set i { prev with test := { prev.test with expected := test.expected } } }
      else s.push test error is_from_glob
    | none => s.push test error is_from_glob
  | none => s.push test error is_from_glob

/-- Lexicographic order on character lists (the order `paths.sort()` uses). -/
def strLe : List Char → List Char → Bool
  | [], _ => true
  | _ :: _, [] => false
  | a :: as, b :: bs =>
    if a = b then strLe as bs else decide (a.toNat < b.toNat)

/-- Insertion sort on strings, modelling `paths.sort()` inside `glob`. -/
def insertSorted (x : String) : List String → List String
  | [] => [x]
  | y :: ys => if strLe x.data y.data then x :: y :: ys else y :: insertSorted x ys

/-- `Vec::sort` on the glob matches (`glob` in src/lib.rs sorts before
returning). -/
def sortStrings : List String → List String
  | [] => []
  | x :: xs => insertSorted x (sortStrings xs)

/-- The loop body of `Runner::expand_globs`: treat a path containing `*` as
a pattern (`globFn` stands for the external `glob::glob` query; its matches
are sorted as in `glob`), inserting one glob-origin entry per match, a
single literal-origin entry otherwise, and a pre-error entry on a failed
glob query. -/
def expandStep (globFn : String → Except Error (List String))
    (set : ExpandedTestSet) (test : Test) : ExpandedTestSet :=
  if test.path.data.contains '*' then
    match (globFn test.path).map sortStrings with
    | .ok paths =>
      paths.foldl (fun s p => s.insert ⟨p, test.expected⟩ none true) set
    | .error e => set.insert test (some e) false
  else set.insert test none false

/-- `Runner::expand_globs` from src/lib.rs. -/
def Runner.expand_globs (globFn : String → Except Error (List String))
    (tests : List Test) : List ExpandedTest :=
  (tests.foldl (expandStep globFn) ExpandedTestSet.new).vec

/-! ### Runner (src/lib.rs) -/

/-- `Runner::prepare` from src/lib.rs.  The local `has_pass` is computed from
the batch exactly as the source's loop does, but — as in the source — the
`Project` is constructed with the literal `false` (src/lib.rs line 347) and
`keep_going: true`; the update policy comes from `Update::env()`, passed in
as `upd`. -/
def Runner.prepare (upd : Update) (tests : List ExpandedTest) : Project :=
  let has_pass := tests.any fun e => e.test.expected == Expected.Pass
  let has_compile_fail := tests.any fun e => e.test.expected == Expected.CompileFail
  { has_pass := false,
    update := upd,
    has_compile_fail := has_compile_fail,
    keep_going := true }

/-- The loop body of `Runner::run_all`, with the report and the (reversed)
trace of build invocations as accumulators.  A `none` from `o.build` models
`zxc::build_test` failing to spawn, which the source propagates with `?`,
aborting the whole loop with `Error::Cargo`. -/
def Runner.runAllGo (o : Oracle) (upd : Update) (codegen : String) :
    List ExpandedTest → Report → List Event → Except Error Report × List Event
  | [], r, evs => (.ok r, evs.reverse)
  | t :: rest, r, evs =>
    let err0 : Option Error :=
      match t.error with
      | some e => some e
      | none =>
        match check_exists o.fs t.test.path with
        | .ok _ => none
        | .error e => some e
    match err0 with
    | some _ =>
      Runner.runAllGo o upd codegen rest { r with failures := r.failures + 1 } evs
    | none =>
      match o.build t.test.path t.name codegen with
      | none => (.error .Cargo, (Event.Build t.test.path t.name codegen :: evs).reverse)
      | some output =>
        let evs' := Event.Build t.test.path t.name codegen :: evs
        match (Test.check o upd t.test t.name output.success output.stderr).1 with
        | .ok .Passed => Runner.runAllGo o upd codegen rest r evs'
        | .ok .CreatedWip =>
          Runner.runAllGo o upd codegen rest { r with created_wip := r.created_wip + 1 } evs'
        | .error _ =>
          Runner.runAllGo o upd codegen rest { r with failures := r.failures + 1 } evs'

/-- `Runner::run_all` from src/lib.rs, returning the report (or the aborting
error) together with the trace of build invocations.  The dead `path_map`
construction of the source is omitted (it is built, never read). -/
def Runner.run_all (o : Oracle) (upd : Update) (codegen : String)
    (tests : List ExpandedTest) : Except Error Report × List Event :=
  Runner.runAllGo o upd codegen tests ⟨0, 0⟩ []

/-- `Runner::run` from src/lib.rs, modelling a run with no `trybuild=` filter
arguments (so `filter` keeps every test) and a successfully acquired lock.
Returns `((report, len), build events)`; when `run_all` aborts with an error
the source's `unwrap_or_else` records `len` failures. -/
def Runner.run (o : Oracle) (upd : Update) (codegen : String)
    (declared : List Test) : (Report × Nat) × List Event :=
  let tests := Runner.expand_globs o.globFn declared
  let project := Runner.prepare upd tests
  let len := tests.length
  if tests.isEmpty then ((⟨0, 0⟩, len), [])
  else if project.keep_going && !project.has_pass then
    match Runner.run_all o project.update codegen tests with
    | (.ok r, evs) => ((r, len), evs)
    | (.error _, evs) => ((⟨len, 0⟩, len), evs)
  else
    ((tests.foldl
        (fun r t =>
          match (Test.run o project.update t.test t.name codegen).1 with
          | .ok .Passed => r
          | .ok .CreatedWip => { r with created_wip := r.created_wip + 1 }
          | .error _ => { r with failures := r.failures + 1 })
        ⟨0, 0⟩, len), [])

/-- The failure summary `panic!("{} of {} tests failed", ...)`. -/
def failuresMessage (failures len : Nat) : String :=
  toString failures ++ " of " ++ toString len ++ " tests failed"

/-- The provisional-snapshot summary
`panic!("successfully created new stderr files for {} test cases", ...)`. -/
def createdWipMessage (n : Nat) : String :=
  "successfully created new stderr files for " ++ toString n ++ " test cases"

/-- The tail of `Runner::run` (src/lib.rs lines 437-442): `some msg` when the
session aborts the host test process by panicking with `msg`, `none` when it
completes normally. -/
def Runner.conclude (r : Report) (len : Nat) : Option String :=
  if r.failures > 0 then some (failuresMessage r.failures len)
  else if r.created_wip > 0 then some (createdWipMessage r.created_wip)
  else none

/-- `impl Drop for TestCases` from src/lib.rs (lines 294-303): when the
dropping thread is not already panicking (`unwinding = false`), run the whole
declared batch with the `cranelift` backend; `Runner::run` ends by panicking
when its report has failures or provisional snapshots (src/lib.rs lines
437-442, modelled by `Runner.conclude`), and that panic unwinds out of the
drop — the `llvm` run happens only when the `cranelift` run concluded
normally.  Returns the trace of build invocations performed before the drop
returns or unwinds. -/
def TestCases.dropRun (unwinding : Bool) (o : Oracle) (upd : Update)
    (declared : List Test) : List Event :=
  if unwinding then []
  else
    let first := Runner.run o upd "cranelift" declared
    match Runner.conclude first.1.1 first.1.2 with
    | some _ => first.2
    | none => first.2 ++ (Runner.run o upd "llvm" declared).2

/-! ### Unfolding lemmas -/

/-- `Diff.compute` on a successful comparison, unfolded. -/
theorem Diff.compute_some (expected actual : String) (chunks : List Chunk) :
    Diff.compute expected actual (some chunks) =
      if expected.utf8ByteSize + actual.utf8ByteSize > 2048 then none
      else if ¬ (5 * chunksCommonLen chunks ≥
          4 * max expected.utf8ByteSize actual.utf8ByteSize) then none
      else some ⟨expected, actual, chunks⟩ := rfl

/-- `Diff.compute` refuses when the comparison routine failed. -/
theorem Diff.compute_none (expected actual : String) :
    Diff.compute expected actual none = none := by
  unfold Diff.compute
  split <;> rfl

/-- The `AlreadyExists`/`Found` arm of `flockCreateStep`, unfolded. -/
theorem flockCreateStep_found (now modified : Int) :
    flockCreateStep .AlreadyExists (.Found modified) now =
      if modified < now - 1500 ∨ now + 1500 < modified then .Steal
      else .SleepRetry 500 := rfl

/-! ### Concrete fixtures used by witnesses and counterexamples -/

/-- An expanded test with `Pass` expectation, as the `pass` entry point
declares it. -/
def passExpandedTest : ExpandedTest :=
  ⟨mkName 0, ⟨"tests/ui/print.rs", Expected.Pass⟩, none, false⟩

/-- A filesystem in which every path exists, reads fail, writes succeed. -/
def allExistFs : Fs :=
  { fileExists := fun _ => true,
    read := fun _ => none,
    writeOk := fun _ => true,
    mkdirOk := fun _ => true }

/-- An oracle whose driver always builds successfully and whose artifacts
always exit successfully. -/
def buildOkOracle : Oracle :=
  { fs := allExistFs,
    build := fun _ _ _ => some ⟨true, "", ""⟩,
    runArtifact := fun _ => some true,
    globFn := fun _ => .ok [] }

/-! ### Claim theorems -/

/-- C6: `Diff::compute` returns a diff exactly when the combined byte length
is at most 2048, the external comparison routine did not fail, and
`5 * common_len ≥ 4 * max(len(expected), len(actual))`; in particular
`compute("abcdefghij", "abcdefghix")` (dissimilar chunks: common prefix
`abcdefghi`, then `j` deleted / `x` inserted) returns a diff,
`compute("abc", "xyz")` (no common characters) returns none, and any pair
with combined length over 2048 returns none regardless of similarity. -/
theorem diff_compute_gating :
    (∀ (expected actual : String) (d : Option (List Chunk)),
      (Diff.compute expected actual d).isSome = true ↔
        expected.utf8ByteSize + actual.utf8ByteSize ≤ 2048 ∧
        ∃ chunks, d = some chunks ∧
          5 * chunksCommonLen chunks ≥
            4 * max expected.utf8ByteSize actual.utf8ByteSize) ∧
    (Diff.compute "abcdefghij" "abcdefghix"
      (some [Chunk.Equal "abcdefghi", Chunk.Delete "j", Chunk.Insert "x"])).isSome
        = true ∧
    Diff.compute "abc" "xyz" (some [Chunk.Delete "abc", Chunk.Insert "xyz"]) = none ∧
    (∀ (expected actual : String) (d : Option (List Chunk)),
      expected.utf8ByteSize + actual.utf8ByteSize > 2048 →
        Diff.compute expected actual d = none) := by
  refine ⟨?_, by decide, by decide, ?_⟩
  · intro expected actual d
    cases d with
    | none =>
      rw [Diff.compute_none]
      simp only [Option.isSome_none, Bool.false_eq_true, false_iff, not_and]
      rintro - ⟨chunks, hc, -⟩
      exact Option.noConfusion hc
    | some chunks =>
      rw [Diff.compute_some]
      by_cases hsz : expected.utf8ByteSize + actual.utf8ByteSize > 2048
      · rw [if_pos hsz]
        simp only [Option.isSome_none, Bool.false_eq_true, false_iff, not_and]
        intro h1
        omega
      · rw [if_neg hsz]
        by_cases hw : 5 * chunksCommonLen chunks ≥
            4 * max expected.utf8ByteSize actual.utf8ByteSize
        · rw [if_neg (not_not_intro hw)]
          simp only [Option.isSome_some, true_iff]
          exact ⟨by omega, chunks, rfl, hw⟩
        · rw [if_pos hw]
          simp only [Option.isSome_none, Bool.false_eq_true, false_iff, not_and]
          rintro - ⟨c, hc, h5⟩
          cases hc
          exact hw h5
  · intro expected actual d h
    cases d with
    | none => rw [Diff.compute_none]
    | some chunks => rw [Diff.compute_some, if_pos h]

/-- Witness for C6 at concrete inputs. -/
theorem diff_compute_gating_witness :
    (Diff.compute "ab" "ab" (some [Chunk.Equal "ab"])).isSome = true :=
  (diff_compute_gating.1 "ab" "ab" (some [Chunk.Equal "ab"])).mpr
    ⟨by decide, [Chunk.Equal "ab"], rfl, by decide⟩

/-- C8: when creating the lock file fails because it already exists, the
acquirer steals the lock exactly when the file's modification time is older
than `now − 1500 ms` or later than `now + 1500 ms`; otherwise it sleeps
500 ms and retries; a metadata read finding the file gone retries at once. -/
theorem flock_create_step_spec :
    (∀ (now modified : Int),
      flockCreateStep .AlreadyExists (.Found modified) now = .Steal ↔
        modified < now - 1500 ∨ now + 1500 < modified) ∧
    (∀ (now modified : Int),
      ¬ (modified < now - 1500 ∨ now + 1500 < modified) →
        flockCreateStep .AlreadyExists (.Found modified) now = .SleepRetry 500) ∧
    (∀ now : Int, flockCreateStep .AlreadyExists .NotFound now = .RetryNow) := by
  refine ⟨fun now modified => ?_, fun now modified h => ?_, fun now => rfl⟩
  · rw [flockCreateStep_found]
    by_cases h : modified < now - 1500 ∨ now + 1500 < modified
    · rw [if_pos h]
      exact iff_of_true rfl h
    · rw [if_neg h]
      exact iff_of_false (by simp) h
  · rw [flockCreateStep_found, if_neg h]

/-- Witness for C8 at concrete times (mtime 100 ms, now 5000 ms: stale, so
steal; mtime 4000 ms, now 5000 ms: fresh, so sleep 500 ms and retry). -/
theorem flock_create_step_spec_witness :
    flockCreateStep .AlreadyExists (.Found 100) 5000 = .Steal ∧
    flockCreateStep .AlreadyExists (.Found 4000) 5000 = .SleepRetry 500 :=
  ⟨(flock_create_step_spec.1 5000 100).mpr (by decide),
   flock_create_step_spec.2.1 5000 4000 (by decide)⟩

/-- C9: after the batch loop the session panics with the failure summary when
`failures > 0`, else panics with the provisional-snapshot summary when
`created_wip > 0`, and completes normally exactly when both counts are
zero. -/
theorem run_conclude_spec :
    (∀ (r : Report) (len : Nat),
      Runner.conclude r len = none ↔ r.failures = 0 ∧ r.created_wip = 0) ∧
    (∀ (r : Report) (len : Nat), r.failures > 0 →
      Runner.conclude r len = some (failuresMessage r.failures len)) ∧
    (∀ (r : Report) (len : Nat), r.failures = 0 → r.created_wip > 0 →
      Runner.conclude r len = some (createdWipMessage r.created_wip)) := by
  refine ⟨fun r len => ?_, fun r len h => ?_, fun r len h0 h1 => ?_⟩
  · unfold Runner.conclude
    by_cases hf : r.failures > 0
    · rw [if_pos hf]
      exact iff_of_false (by simp) (by omega)
    · rw [if_neg hf]
      by_cases hw : r.created_wip > 0
      · rw [if_pos hw]
        exact iff_of_false (by simp) (by omega)
      · rw [if_neg hw]
        exact iff_of_true rfl ⟨by omega, by omega⟩
  · unfold Runner.conclude
    rw [if_pos h]
  · unfold Runner.conclude
    rw [if_neg (by omega), if_pos h1]

/-- Witness for C9 at concrete reports. -/
theorem run_conclude_spec_witness :
    Runner.conclude ⟨0, 0⟩ 5 = none ∧
    Runner.conclude ⟨2, 1⟩ 5 = some (failuresMessage 2 5) ∧
    Runner.conclude ⟨0, 3⟩ 5 = some (createdWipMessage 3) :=
  ⟨(run_conclude_spec.1 ⟨0, 0⟩ 5).mpr ⟨rfl, rfl⟩,
   run_conclude_spec.2.1 ⟨2, 1⟩ 5 (by decide),
   run_conclude_spec.2.2 ⟨0, 3⟩ 5 rfl (by decide)⟩

/-- C1 (code-bug evidence): `Runner::prepare` computes whether the batch has
a `Pass`-expectation test, but the `Project` it builds carries the literal
`has_pass: false` (and `keep_going: true`), for every batch — including one
that does contain a `Pass` test — so `run` routes every nonempty batch
through `run_all` and never through the individual path. -/
theorem prepare_pins_has_pass_false :
    (∀ (upd : Update) (tests : List ExpandedTest),
      (Runner.prepare upd tests).has_pass = false ∧
      (Runner.prepare upd tests).keep_going = true) ∧
    passExpandedTest.test.expected = Expected.Pass ∧
    (Runner.prepare Update.Wip [passExpandedTest]).has_pass = false :=
  ⟨fun _ _ => ⟨rfl, rfl⟩, rfl, rfl⟩

/-- C5 (code-bug evidence): on the individual `Test::run` path the driver's
actual exit status is discarded — with a driver that reports a successful
build, `Test::run` on a `Pass` fixture still hands `success = false` to the
expectation check and fails with `CargoFail` instead of executing the
artifact, while the `run_all` path given the same oracle passes the real
status through and the fixture passes. -/
theorem test_run_discards_build_status :
    buildOkOracle.build "tests/ui/print.rs" (mkName 0) "llvm" = some ⟨true, "", ""⟩ ∧
    (Test.run buildOkOracle .Wip ⟨"tests/ui/print.rs", Expected.Pass⟩
        (mkName 0) "llvm").1 = .error .CargoFail ∧
    (Runner.run_all buildOkOracle .Wip "llvm" [passExpandedTest]).1 = .ok ⟨0, 0⟩ :=
  ⟨rfl, rfl, rfl⟩

/-- `Test.check_compile_fail` on a failed build with an existing snapshot,
unfolded: the file's contents are CRLF-normalized and compared against the
raw captured stderr. -/
theorem check_compile_fail_snapshot (fs : Fs) (upd : Update) (t : Test)
    (variations content : String)
    (hex : fs.fileExists (withExtension t.path "stderr") = true)
    (hrd : fs.read (withExtension t.path "stderr") = some content) :
    Test.check_compile_fail fs upd t false variations =
      if variations = replaceCrlf content then (.ok .Passed, [])
      else
        match upd with
        | .Wip => (.error .Mismatch, [])
        | .Overwrite =>
          if fs.writeOk (withExtension t.path "stderr") then
            (.ok .Passed, [(withExtension t.path "stderr", variations)])
          else (.error .WriteStderr, []) := by
  unfold Test.check_compile_fail
  simp only [Bool.false_eq_true, if_false, hex, Bool.not_true, hrd]

/-- A filesystem holding one snapshot `tests/ui/one.stderr` whose recorded
text still uses CRLF line endings. -/
def crlfSnapshotFs : Fs :=
  { fileExists := fun p => p == "tests/ui/one.stderr",
    read := fun p => if p == "tests/ui/one.stderr" then some "a\r\nb" else none,
    writeOk := fun _ => true,
    mkdirOk := fun _ => true }

/-- A filesystem holding one snapshot `tests/ui/two.stderr` whose recorded
text uses LF line endings. -/
def lfSnapshotFs : Fs :=
  { fileExists := fun p => p == "tests/ui/two.stderr",
    read := fun p => if p == "tests/ui/two.stderr" then some "a\nb" else none,
    writeOk := fun _ => true,
    mkdirOk := fun _ => true }

/-- C3 counterexample: snapshot content `"a\r\nb"`, captured stderr `"a\nb"`
(already LF-only, so equal to its own normalization).  The snapshot content
does not equal the normalized actual stderr, so the claim predicts the
`Mismatch` failure under wip mode — but the code normalizes the snapshot
side and yields `Passed`. -/
theorem compile_fail_mismatch_counterexample :
    ("a\r\nb" : String) ≠ replaceCrlf "a\nb" ∧
    Test.check_compile_fail crlfSnapshotFs .Wip ⟨"tests/ui/one.rs", Expected.CompileFail⟩
      false "a\nb" = (.ok .Passed, []) :=
  ⟨by decide, rfl⟩

/-- C3 amended: with a failed build and an existing snapshot, if the
CRLF-normalized snapshot content equals the captured stderr the outcome is
`Passed` under both update policies with no write; if they differ, wip mode
yields the `Mismatch` failure and writes nothing, while overwrite mode
(when the write succeeds) rewrites the snapshot to the new stderr content
and yields `Passed`. -/
theorem compile_fail_snapshot_outcomes :
    ∀ (fs : Fs) (t : Test) (variations content : String),
      fs.fileExists (withExtension t.path "stderr") = true →
      fs.read (withExtension t.path "stderr") = some content →
      (variations = replaceCrlf content →
        ∀ upd, Test.check_compile_fail fs upd t false variations = (.ok .Passed, [])) ∧
      (variations ≠ replaceCrlf content →
        Test.check_compile_fail fs .Wip t false variations = (.error .Mismatch, []) ∧
        (fs.writeOk (withExtension t.path "stderr") = true →
          Test.check_compile_fail fs .Overwrite t false variations =
            (.ok .Passed, [(withExtension t.path "stderr", variations)]))) := by
  intro fs t variations content hex hrd
  refine ⟨fun heq upd => ?_, fun hne => ⟨?_, fun hw => ?_⟩⟩
  · rw [check_compile_fail_snapshot fs upd t variations content hex hrd, if_pos heq]
  · rw [check_compile_fail_snapshot fs .Wip t variations content hex hrd, if_neg hne]
  · rw [check_compile_fail_snapshot fs .Overwrite t variations content hex hrd,
      if_neg hne]
    simp only [hw, if_true]

/-- Witness for C3 at a concrete snapshot (CRLF snapshot normalizes to the
captured stderr, so both policies pass). -/
theorem compile_fail_snapshot_outcomes_witness :
    Test.check_compile_fail crlfSnapshotFs .Overwrite
      ⟨"tests/ui/one.rs", Expected.CompileFail⟩ false "a\nb" = (.ok .Passed, []) :=
  (compile_fail_snapshot_outcomes crlfSnapshotFs
    ⟨"tests/ui/one.rs", Expected.CompileFail⟩ "a\nb" "a\r\nb" rfl rfl).1
    (by decide) .Overwrite

/-- C4 counterexample: snapshot content `"a\nb"`, captured stderr `"a\r\nb"`.
Normalizing the captured stderr would make it equal to the snapshot contents
byte-for-byte, so the claim predicts `Passed` — but the code compares the
raw stderr against the normalized snapshot and yields the `Mismatch`
failure. -/
theorem stderr_not_normalized_counterexample :
    replaceCrlf "a\r\nb" = "a\nb" ∧
    lfSnapshotFs.read "tests/ui/two.stderr" = some "a\nb" ∧
    Test.check_compile_fail lfSnapshotFs .Wip ⟨"tests/ui/two.rs", Expected.CompileFail⟩
      false "a\r\nb" = (.error .Mismatch, []) :=
  ⟨by decide, rfl, rfl⟩

/-- C4 amended: for a failed build with an existing snapshot, it is the
snapshot file's contents that are normalized (CRLF replaced by LF) after
reading; the captured stderr is compared byte-for-byte, unmodified, against
that normalized content — the comparison succeeds (outcome `Passed` with no
write) exactly when the raw stderr equals the normalized snapshot. -/
theorem snapshot_side_normalized :
    ∀ (fs : Fs) (upd : Update) (t : Test) (variations content : String),
      fs.fileExists (withExtension t.path "stderr") = true →
      fs.read (withExtension t.path "stderr") = some content →
      (Test.check_compile_fail fs upd t false variations = (.ok .Passed, []) ↔
        variations = replaceCrlf content) := by
  intro fs upd t variations content hex hrd
  rw [check_compile_fail_snapshot fs upd t variations content hex hrd]
  by_cases heq : variations = replaceCrlf content
  · rw [if_pos heq]
    exact iff_of_true rfl heq
  · rw [if_neg heq]
    refine iff_of_false ?_ heq
    cases upd with
    | Wip => simp
    | Overwrite =>
      cases hwv : fs.writeOk (withExtension t.path "stderr") <;> simp [hwv]

/-- Witness for C4 at a concrete snapshot (LF snapshot, LF stderr: equal, so
`Passed`). -/
theorem snapshot_side_normalized_witness :
    Test.check_compile_fail lfSnapshotFs .Wip
      ⟨"tests/ui/two.rs", Expected.CompileFail⟩ false "a\nb" = (.ok .Passed, []) :=
  (snapshot_side_normalized lfSnapshotFs .Wip
    ⟨"tests/ui/two.rs", Expected.CompileFail⟩ "a\nb" "a\nb" rfl rfl).mpr (by decide)

/-! ### Per-test summary of the `run_all` loop body -/

/-- The evaluation `run_all` performs for one entry, read off its loop body:
`some (error e)` when a failure ends up attached to the test's record,
`some (ok outcome)` when the test passes or writes a provisional snapshot,
and `none` in the one case the source propagates with `?` — the compiler
driver failing to spawn. -/
def testOutcome (o : Oracle) (upd : Update) (codegen : String) (t : ExpandedTest) :
    Option (Except Error Outcome) :=
  match t.error with
  | some e => some (.error e)
  | none =>
    match check_exists o.fs t.test.path with
    | .error e => some (.error e)
    | .ok _ =>
      match o.build t.test.path t.name codegen with
      | none => none
      | some output =>
        some (Test.check o upd t.test t.name output.success output.stderr).1

/-- Whether `run_all` records a failure for this entry. -/
def testFails (o : Oracle) (upd : Update) (codegen : String) (t : ExpandedTest) : Bool :=
  match testOutcome o upd codegen t with
  | some (.error _) => true
  | _ => false

/-- Whether `run_all` records a provisional snapshot for this entry. -/
def testWip (o : Oracle) (upd : Update) (codegen : String) (t : ExpandedTest) : Bool :=
  match testOutcome o upd codegen t with
  | some (.ok .CreatedWip) => true
  | _ => false

/-- Whether `run_all` reaches the driver invocation for this entry (no
pre-recorded error and the fixture file exists). -/
def reachesBuild (o : Oracle) (t : ExpandedTest) : Bool :=
  t.error.isNone && o.fs.fileExists t.test.path

/-- As long as no entry hits a driver spawn failure, the `run_all` loop
starting from any accumulator state processes every entry, tallying
failures and provisional snapshots per test and logging one build
invocation per entry that reaches the driver. -/
theorem runAllGo_spec (o : Oracle) (upd : Update) (codegen : String) :
    ∀ (tests : List ExpandedTest) (r : Report) (evs : List Event),
      (∀ t ∈ tests, testOutcome o upd codegen t ≠ none) →
      Runner.runAllGo o upd codegen tests r evs =
        (.ok ⟨r.failures + (tests.filter (testFails o upd codegen)).length,
              r.created_wip + (tests.filter (testWip o upd codegen)).length⟩,
         evs.reverse ++ (tests.filter (reachesBuild o)).map
           (fun t => Event.Build t.test.path t.name codegen)) := by
  intro tests
  induction tests with
  | nil =>
    intro r evs _
    simp [Runner.runAllGo]
  | cons t rest ih =>
    intro r evs h
    have hhd : testOutcome o upd codegen t ≠ none := h t (List.mem_cons_self t rest)
    have htl : ∀ x ∈ rest, testOutcome o upd codegen x ≠ none :=
      fun x hx => h x (List.mem_cons_of_mem t hx)
    cases herr : t.error with
    | some e =>
      rw [show Runner.runAllGo o upd codegen (t :: rest) r evs =
          Runner.runAllGo o upd codegen rest { r with failures := r.failures + 1 } evs by
        simp only [Runner.runAllGo]
        rw [herr]]
      rw [ih { r with failures := r.failures + 1 } evs htl]
      have hf : testFails o upd codegen t = true := by
        simp [testFails, testOutcome, herr]
      have hw : testWip o upd codegen t = false := by
        simp [testWip, testOutcome, herr]
      have hrb : reachesBuild o t = false := by
        simp [reachesBuild, herr]
      simp only [List.filter_cons, hf, hw, hrb, if_true, if_false, List.length_cons,
        Bool.false_eq_true, Report.mk.injEq, Prod.mk.injEq, Except.ok.injEq]
      exact ⟨⟨by omega, trivial⟩, trivial⟩
    | none =>
      cases hex : o.fs.fileExists t.test.path with
      | false =>
        rw [show Runner.runAllGo o upd codegen (t :: rest) r evs =
            Runner.runAllGo o upd codegen rest { r with failures := r.failures + 1 } evs by
          simp only [Runner.runAllGo]
          rw [herr]
          simp only [check_exists, hex, Bool.false_eq_true, if_false]]
        rw [ih { r with failures := r.failures + 1 } evs htl]
        have hf : testFails o upd codegen t = true := by
          simp [testFails, testOutcome, herr, check_exists, hex]
        have hw : testWip o upd codegen t = false := by
          simp [testWip, testOutcome, herr, check_exists, hex]
        have hrb : reachesBuild o t = false := by
          simp [reachesBuild, hex]
        simp only [List.filter_cons, hf, hw, hrb, if_true, if_false, List.length_cons,
          Bool.false_eq_true, Report.mk.injEq, Prod.mk.injEq, Except.ok.injEq]
        exact ⟨⟨by omega, trivial⟩, trivial⟩
      | true =>
        cases hb : o.build t.test.path t.name codegen with
        | none =>
          exact absurd (by simp [testOutcome, herr, check_exists, hex, hb]) hhd
        | some output =>
          have hrb : reachesBuild o t = true := by
            simp [reachesBuild, herr, hex]
          have hout : testOutcome o upd codegen t =
              some (Test.check o upd t.test t.name output.success output.stderr).1 := by
            simp [testOutcome, herr, check_exists, hex, hb]
          cases hc : (Test.check o upd t.test t.name output.success output.stderr).1 with
          | ok oc =>
            cases oc with
            | Passed =>
              rw [show Runner.runAllGo o upd codegen (t :: rest) r evs =
                  Runner.runAllGo o upd codegen rest r
                    (Event.Build t.test.path t.name codegen :: evs) by
                simp only [Runner.runAllGo]
                rw [herr]
                simp only [check_exists, hex, if_true, hb, hc]]
              rw [ih r (Event.Build t.test.path t.name codegen :: evs) htl]
              have hf : testFails o upd codegen t = false := by
                simp [testFails, hout, hc]
              have hw : testWip o upd codegen t = false := by
                simp [testWip, hout, hc]
              simp only [List.filter_cons, hf, hw, hrb, if_true, if_false,
                Bool.false_eq_true, List.map_cons, List.reverse_cons, List.append_assoc,
                List.singleton_append, Prod.mk.injEq]
            | CreatedWip =>
              rw [show Runner.runAllGo o upd codegen (t :: rest) r evs =
                  Runner.runAllGo o upd codegen rest
                    { r with created_wip := r.created_wip + 1 }
                    (Event.Build t.test.path t.name codegen :: evs) by
                simp only [Runner.runAllGo]
                rw [herr]
                simp only [check_exists, hex, if_true, hb, hc]]
              rw [ih { r with created_wip := r.created_wip + 1 }
                (Event.Build t.test.path t.name codegen :: evs) htl]
              have hf : testFails o upd codegen t = false := by
                simp [testFails, hout, hc]
              have hw : testWip o upd codegen t = true := by
                simp [testWip, hout, hc]
              simp only [List.filter_cons, hf, hw, hrb, if_true, if_false,
                Bool.false_eq_true, List.length_cons, List.map_cons, List.reverse_cons,
                List.append_assoc, List.singleton_append, Report.mk.injEq,
                Prod.mk.injEq, Except.ok.injEq]
              exact ⟨⟨trivial, by omega⟩, trivial⟩
          | error e =>
            rw [show Runner.runAllGo o upd codegen (t :: rest) r evs =
                Runner.runAllGo o upd codegen rest
                  { r with failures := r.failures + 1 }
                  (Event.Build t.test.path t.name codegen :: evs) by
              simp only [Runner.runAllGo]
              rw [herr]
              simp only [check_exists, hex, if_true, hb, hc]]
            rw [ih { r with failures := r.failures + 1 }
              (Event.Build t.test.path t.name codegen :: evs) htl]
            have hf : testFails o upd codegen t = true := by
              simp [testFails, hout, hc]
            have hw : testWip o upd codegen t = false := by
              simp [testWip, hout, hc]
            simp only [List.filter_cons, hf, hw, hrb, if_true, if_false,
              Bool.false_eq_true, List.length_cons, List.map_cons, List.reverse_cons,
              List.append_assoc, List.singleton_append, Report.mk.injEq,
              Prod.mk.injEq, Except.ok.injEq]
            exact ⟨⟨by omega, trivial⟩, trivial⟩

/-- On a nonempty expanded batch, `Runner::run` always takes the `run_all`
branch (by `prepare`, `keep_going` is pinned `true` and `has_pass` pinned
`false`), wrapping its result as the source's `unwrap_or_else` does. -/
theorem run_eq_run_all (o : Oracle) (upd : Update) (codegen : String)
    (declared : List Test)
    (hne : Runner.expand_globs o.globFn declared ≠ []) :
    Runner.run o upd codegen declared =
      match Runner.run_all o upd codegen (Runner.expand_globs o.globFn declared) with
      | (.ok r, evs) => ((r, (Runner.expand_globs o.globFn declared).length), evs)
      | (.error _, evs) =>
        ((⟨(Runner.expand_globs o.globFn declared).length, 0⟩,
          (Runner.expand_globs o.globFn declared).length), evs) := by
  have hbreak : (Runner.expand_globs o.globFn declared).isEmpty = false := by
    cases hl : Runner.expand_globs o.globFn declared with
    | nil => exact absurd hl hne
    | cons a l => rfl
  simp only [Runner.run, Runner.prepare, hbreak, Bool.false_eq_true, if_false,
    Bool.not_false, Bool.and_self, if_true]

/-- An oracle whose driver fails to spawn on `tests/ui/first.rs` and builds
(unsuccessfully) everything else. -/
def spawnFailOracle : Oracle :=
  { fs := allExistFs,
    build := fun path _ _ =>
      if path == "tests/ui/first.rs" then none else some ⟨false, "", ""⟩,
    runArtifact := fun _ => some true,
    globFn := fun _ => .ok [] }

/-- First entry of the spawn-failure batch. -/
def firstExpandedTest : ExpandedTest :=
  ⟨mkName 0, ⟨"tests/ui/first.rs", Expected.CompileFail⟩, none, false⟩

/-- Second entry of the spawn-failure batch. -/
def secondExpandedTest : ExpandedTest :=
  ⟨mkName 1, ⟨"tests/ui/second.rs", Expected.CompileFail⟩, none, false⟩

/-- C2 counterexample: when the driver fails to spawn for the first test of a
two-test batch, `run_all` aborts with `Error::Cargo` — the failure is not
attached to the first test's record inside a report, and the second test is
never executed (the build trace stops after the first invocation). -/
theorem run_all_aborts_on_spawn_failure :
    Runner.run_all spawnFailOracle .Wip "cranelift"
        [firstExpandedTest, secondExpandedTest] =
      (.error .Cargo, [Event.Build "tests/ui/first.rs" (mkName 0) "cranelift"]) := rfl

/-- C2 amended: every per-test failure other than a driver spawn failure is
captured on the test's record and counted in the report while the remaining
tests still execute; a driver spawn failure, however, aborts the `run_all`
loop with `Error::Cargo`, after which `Runner::run` reports the whole batch
(all of its tests) as failed. -/
theorem run_all_keeps_going :
    (∀ (o : Oracle) (upd : Update) (codegen : String) (tests : List ExpandedTest),
      (∀ t ∈ tests, testOutcome o upd codegen t ≠ none) →
      Runner.run_all o upd codegen tests =
        (.ok ⟨(tests.filter (testFails o upd codegen)).length,
              (tests.filter (testWip o upd codegen)).length⟩,
         (tests.filter (reachesBuild o)).map
           (fun t => Event.Build t.test.path t.name codegen))) ∧
    (∀ (o : Oracle) (upd : Update) (codegen : String) (declared : List Test)
        (e : Error) (evs : List Event),
      Runner.expand_globs o.globFn declared ≠ [] →
      Runner.run_all o upd codegen (Runner.expand_globs o.globFn declared) =
        (.error e, evs) →
      (Runner.run o upd codegen declared).1.1.failures =
        (Runner.expand_globs o.globFn declared).length) := by
  constructor
  · intro o upd codegen tests h
    unfold Runner.run_all
    rw [runAllGo_spec o upd codegen tests ⟨0, 0⟩ [] h]
    simp
  · intro o upd codegen declared e evs hne hrun
    rw [run_eq_run_all o upd codegen declared hne, hrun]

/-- Witness for C2 on a concrete batch with no spawn failure: the compile
failure of the only test is captured in the report and its build is traced. -/
theorem run_all_keeps_going_witness :
    Runner.run_all buildOkOracle .Wip "llvm" [firstExpandedTest] =
      (.ok ⟨1, 0⟩, [Event.Build "tests/ui/first.rs" (mkName 0) "llvm"]) := by
  have h := run_all_keeps_going.1 buildOkOracle .Wip "llvm" [firstExpandedTest]
    (by intro t ht; fin_cases ht; simp [testOutcome, firstExpandedTest, buildOkOracle,
      allExistFs, check_exists])
  exact h.trans (by rfl)

/-- When every expanded entry has no pre-error, an existing fixture file and
a driver that spawns, one `Runner::run` logs exactly one build invocation per
expanded entry, in batch order. -/
theorem run_events_of_clean (o : Oracle) (upd : Update) (codegen : String)
    (declared : List Test)
    (h : ∀ t ∈ Runner.expand_globs o.globFn declared,
      t.error = none ∧ o.fs.fileExists t.test.path = true ∧
      o.build t.test.path t.name codegen ≠ none) :
    (Runner.run o upd codegen declared).2 =
      (Runner.expand_globs o.globFn declared).map
        (fun t => Event.Build t.test.path t.name codegen) := by
  by_cases hne : Runner.expand_globs o.globFn declared = []
  · have hemp : (Runner.expand_globs o.globFn declared).isEmpty = true := by
      rw [hne]
      rfl
    simp only [Runner.run, Runner.prepare, hemp, if_true]
    rw [hne]
    rfl
  · have hout : ∀ t ∈ Runner.expand_globs o.globFn declared,
        testOutcome o upd codegen t ≠ none := by
      intro t ht
      obtain ⟨h1, h2, h3⟩ := h t ht
      cases hb : o.build t.test.path t.name codegen with
      | none => exact absurd hb h3
      | some output => simp [testOutcome, h1, check_exists, h2, hb]
    have hfil : (Runner.expand_globs o.globFn declared).filter (reachesBuild o) =
        Runner.expand_globs o.globFn declared := by
      refine List.filter_eq_self.mpr fun t ht => ?_
      obtain ⟨h1, h2, -⟩ := h t ht
      simp [reachesBuild, h1, h2]
    have hra : Runner.run_all o upd codegen (Runner.expand_globs o.globFn declared) =
        (.ok ⟨((Runner.expand_globs o.globFn declared).filter
                 (testFails o upd codegen)).length,
              ((Runner.expand_globs o.globFn declared).filter
                 (testWip o upd codegen)).length⟩,
         (Runner.expand_globs o.globFn declared).map
           (fun t => Event.Build t.test.path t.name codegen)) := by
      unfold Runner.run_all
      rw [runAllGo_spec o upd codegen (Runner.expand_globs o.globFn declared) ⟨0, 0⟩ []
        hout, hfil]
      simp
    rw [run_eq_run_all o upd codegen declared hne, hra]

/-- `dropRun false` unfolded on the outcome of the `cranelift` run. -/
theorem dropRun_false (o : Oracle) (upd : Update) (declared : List Test) :
    TestCases.dropRun false o upd declared =
      match Runner.conclude (Runner.run o upd "cranelift" declared).1.1
          (Runner.run o upd "cranelift" declared).1.2 with
      | some _ => (Runner.run o upd "cranelift" declared).2
      | none => (Runner.run o upd "cranelift" declared).2 ++
          (Runner.run o upd "llvm" declared).2 := rfl

/-- C10 counterexample: one CompileFail fixture whose driver builds
successfully.  The `cranelift` run records the `ShouldNotHaveCompiled`
failure, so `Runner::run` panics (`1 of 1 tests failed`) and the drop unwinds
before the `llvm` run: the batch is *not* run twice — no fixture is ever
built with the `llvm` backend. -/
theorem drop_skips_llvm_counterexample :
    (Runner.run buildOkOracle .Wip "cranelift"
        [⟨"tests/ui/first.rs", Expected.CompileFail⟩]).1.1.failures = 1 ∧
    TestCases.dropRun false buildOkOracle .Wip
        [⟨"tests/ui/first.rs", Expected.CompileFail⟩] =
      [Event.Build "tests/ui/first.rs" (mkName 0) "cranelift"] ∧
    Event.Build "tests/ui/first.rs" (mkName 0) "llvm" ∉
      TestCases.dropRun false buildOkOracle .Wip
        [⟨"tests/ui/first.rs", Expected.CompileFail⟩] :=
  ⟨rfl, rfl, by decide⟩

/-- C10 amended: dropping a `TestCases` value runs nothing when the dropping
thread is already panicking; otherwise it runs the declared batch with the
`cranelift` backend and, only when that run concludes without signalling
failure (zero failures and zero provisional snapshots), runs the batch again
with `llvm`; when the `cranelift` run signals, its panic unwinds the drop and
the `llvm` run never happens.  In the clean case every expanded fixture is
built exactly once per backend. -/
theorem drop_runs_batch_twice :
    ∀ (o : Oracle) (upd : Update) (declared : List Test),
      TestCases.dropRun true o upd declared = [] ∧
      (Runner.conclude (Runner.run o upd "cranelift" declared).1.1
          (Runner.run o upd "cranelift" declared).1.2 ≠ none →
        TestCases.dropRun false o upd declared =
          (Runner.run o upd "cranelift" declared).2) ∧
      ((∀ t ∈ Runner.expand_globs o.globFn declared,
          t.error = none ∧ o.fs.fileExists t.test.path = true ∧
          o.build t.test.path t.name "cranelift" ≠ none ∧
          o.build t.test.path t.name "llvm" ≠ none) →
        Runner.conclude (Runner.run o upd "cranelift" declared).1.1
          (Runner.run o upd "cranelift" declared).1.2 = none →
        TestCases.dropRun false o upd declared =
          (Runner.expand_globs o.globFn declared).map
            (fun t => Event.Build t.test.path t.name "cranelift") ++
          (Runner.expand_globs o.globFn declared).map
            (fun t => Event.Build t.test.path t.name "llvm")) := by
  intro o upd declared
  refine ⟨rfl, ?_, ?_⟩
  · intro hsig
    rw [dropRun_false]
    cases hcon : Runner.conclude (Runner.run o upd "cranelift" declared).1.1
        (Runner.run o upd "cranelift" declared).1.2 with
    | none => exact absurd hcon hsig
    | some m => rfl
  · intro h hcon
    rw [dropRun_false, hcon]
    have hc := run_events_of_clean o upd "cranelift" declared
      (fun t ht => ⟨(h t ht).1, (h t ht).2.1, (h t ht).2.2.1⟩)
    have hl := run_events_of_clean o upd "llvm" declared
      (fun t ht => ⟨(h t ht).1, (h t ht).2.1, (h t ht).2.2.2⟩)
    rw [hc, hl]

/-- An oracle whose driver spawns but reports a failed build whose stderr
matches every snapshot on disk: the whole batch passes cleanly. -/
def cleanOracle : Oracle :=
  { fs :=
      { fileExists := fun _ => true,
        read := fun _ => some "boom",
        writeOk := fun _ => true,
        mkdirOk := fun _ => true },
    build := fun _ _ _ => some ⟨false, "", "boom"⟩,
    runArtifact := fun _ => some true,
    globFn := fun _ => .ok [] }

/-- Witness for C10: on the failing batch the drop stops after the
`cranelift` run; on a clean batch it builds the fixture once per backend. -/
theorem drop_runs_batch_twice_witness :
    TestCases.dropRun false buildOkOracle .Wip
        [⟨"tests/ui/first.rs", Expected.CompileFail⟩] =
      (Runner.run buildOkOracle .Wip "cranelift"
        [⟨"tests/ui/first.rs", Expected.CompileFail⟩]).2 ∧
    TestCases.dropRun false cleanOracle .Wip
        [⟨"tests/ui/first.rs", Expected.CompileFail⟩] =
      [Event.Build "tests/ui/first.rs" (mkName 0) "cranelift",
       Event.Build "tests/ui/first.rs" (mkName 0) "llvm"] :=
  ⟨(drop_runs_batch_twice buildOkOracle .Wip
      [⟨"tests/ui/first.rs", Expected.CompileFail⟩]).2.1 (by decide),
   ((drop_runs_batch_twice cleanOracle .Wip
      [⟨"tests/ui/first.rs", Expected.CompileFail⟩]).2.2 (by decide)
      (by decide)).trans (by rfl)⟩

/-! ### The expansion invariant -/

/-- `(l ++ [a])[i]?`, split by position. -/
theorem getElem?_concat {α : Type} (l : List α) (a : α) (i : Nat) :
    (l ++ [a])[i]? =
      if i < l.length then l[i]? else if i = l.length then some a else none := by
  by_cases h1 : i < l.length
  · rw [List.getElem?_append, if_pos h1, if_pos h1]
  · rw [List.getElem?_append, if_neg h1, if_neg h1]
    by_cases h2 : i = l.length
    · rw [if_pos h2, h2]
      simp
    · rw [if_neg h2]
      exact List.getElem?_eq_none (by simp; omega)

/-- `lookupIndex` on a freshly inserted binding. -/
theorem lookupIndex_cons (q : String) (i : Nat) (m : List (String × Nat)) (p : String) :
    lookupIndex ((q, i) :: m) p = if q = p then some i else lookupIndex m p := rfl

/-- The `vec` component of `push`. -/
theorem push_vec (s : ExpandedTestSet) (t : Test) (err : Option Error) (b : Bool) :
    (s.push t err b).vec = s.vec ++ [⟨mkName s.vec.length, t, err, b⟩] := rfl

/-- The `path_to_index` component of `push`. -/
theorem push_map (s : ExpandedTestSet) (t : Test) (err : Option Error) (b : Bool) :
    (s.push t err b).path_to_index = (t.path, s.vec.length) :: s.path_to_index := rfl

/-- The invariant maintained by `ExpandedTestSet`: names are the ordinal of
the entry's position; every mapped index holds an entry with the mapped path
and is the last entry at that path; every present path is mapped; and every
glob-origin entry is the target of its path's mapping (hence the last entry
at its path). -/
def SetWF (s : ExpandedTestSet) : Prop :=
  (∀ (i : Nat) (e : ExpandedTest), s.vec[i]? = some e → e.name = mkName i) ∧
  (∀ (p : String) (i : Nat), lookupIndex s.path_to_index p = some i →
    ∃ e, s.vec[i]? = some e ∧ e.test.path = p ∧
      ∀ (j : Nat) (e' : ExpandedTest), s.vec[j]? = some e' → e'.test.path = p →
        j ≤ i) ∧
  (∀ (j : Nat) (e : ExpandedTest), s.vec[j]? = some e →
    lookupIndex s.path_to_index e.test.path ≠ none) ∧
  (∀ (j : Nat) (e : ExpandedTest), s.vec[j]? = some e → e.is_from_glob = true →
    lookupIndex s.path_to_index e.test.path = some j)

/-- The empty set is well formed. -/
theorem setWF_new : SetWF ExpandedTestSet.new := by
  refine ⟨?_, ?_, ?_, ?_⟩ <;> intro a b h <;>
    simp [ExpandedTestSet.new, lookupIndex] at h

/-- `push` preserves the invariant as long as no glob-origin entry already
sits at the pushed path. -/
theorem setWF_push (s : ExpandedTestSet) (t : Test) (err : Option Error) (b : Bool)
    (h : SetWF s)
    (hng : ∀ (j : Nat) (e : ExpandedTest), s.vec[j]? = some e →
      e.test.path = t.path → e.is_from_glob = false) :
    SetWF (s.push t err b) := by
  obtain ⟨ha, hmap, hpres, hglob⟩ := h
  refine ⟨?_, ?_, ?_, ?_⟩
  · intro i e hi
    rw [push_vec, getElem?_concat] at hi
    by_cases h1 : i < s.vec.length
    · rw [if_pos h1] at hi
      exact ha i e hi
    · rw [if_neg h1] at hi
      by_cases h2 : i = s.vec.length
      · rw [if_pos h2] at hi
        cases hi
        rw [h2]
      · rw [if_neg h2] at hi
        exact Option.noConfusion hi
  · intro p i hl
    rw [push_map, lookupIndex_cons] at hl
    by_cases hp : t.path = p
    · rw [if_pos hp] at hl
      cases hl
      refine ⟨⟨mkName s.vec.length, t, err, b⟩, ?_, hp, ?_⟩
      · rw [push_vec, getElem?_concat, if_neg (lt_irrefl s.vec.length), if_pos rfl]
      · intro j e' hj hp'
        have hjl := (List.getElem?_eq_some.mp hj).1
        rw [push_vec, List.length_append] at hjl
        simp at hjl
        omega
    · rw [if_neg hp] at hl
      obtain ⟨e, he, hpath, hmax⟩ := hmap p i hl
      have hlt : i < s.vec.length := (List.getElem?_eq_some.mp he).1
      refine ⟨e, ?_, hpath, ?_⟩
      · rw [push_vec, getElem?_concat, if_pos hlt]
        exact he
      · intro j e' hj hp'
        rw [push_vec, getElem?_concat] at hj
        by_cases h1 : j < s.vec.length
        · rw [if_pos h1] at hj
          exact hmax j e' hj hp'
        · rw [if_neg h1] at hj
          by_cases h2 : j = s.vec.length
          · rw [if_pos h2] at hj
            cases hj
            exact absurd hp' hp
          · rw [if_neg h2] at hj
            exact Option.noConfusion hj
  · intro j e hj
    rw [push_vec, getElem?_concat] at hj
    by_cases h1 : j < s.vec.length
    · rw [if_pos h1] at hj
      by_cases hp : t.path = e.test.path
      · rw [push_map, lookupIndex_cons, if_pos hp]
        exact Option.noConfusion
      · rw [push_map, lookupIndex_cons, if_neg hp]
        exact hpres j e hj
    · rw [if_neg h1] at hj
      by_cases h2 : j = s.vec.length
      · rw [if_pos h2] at hj
        cases hj
        rw [push_map, lookupIndex_cons, if_pos rfl]
        exact Option.noConfusion
      · rw [if_neg h2] at hj
        exact Option.noConfusion hj
  · intro j e hj hg
    rw [push_vec, getElem?_concat] at hj
    by_cases h1 : j < s.vec.length
    · rw [if_pos h1] at hj
      by_cases hp : e.test.path = t.path
      · have hfalse := hng j e hj hp
        rw [hg] at hfalse
        exact Bool.noConfusion hfalse
      · rw [push_map, lookupIndex_cons, if_neg (fun hh => hp hh.symm)]
        exact hglob j e hj hg
    · rw [if_neg h1] at hj
      by_cases h2 : j = s.vec.length
      · rw [if_pos h2] at hj
        cases hj
        rw [push_map, lookupIndex_cons, if_pos rfl, h2]
      · rw [if_neg h2] at hj
        exact Option.noConfusion hj

/-- Overwriting the stored expectation of the entry at a mapped index
preserves the invariant. -/
theorem setWF_set_expected (s : ExpandedTestSet) (i : Nat) (prev : ExpandedTest)
    (exp : Expected) (h : SetWF s) (hv : s.vec[i]? = some prev) :
    SetWF { s with
      vec := s.vec.set i { prev with test := { prev.test with expected := exp } } } := by
  obtain ⟨ha, hmap, hpres, hglob⟩ := h
  have hlt : i < s.vec.length := (List.getElem?_eq_some.mp hv).1
  have hget : ∀ j : Nat,
      (s.vec.set i { prev with test := { prev.test with expected := exp } })[j]? =
        if i = j then some { prev with test := { prev.test with expected := exp } }
        else s.vec[j]? := by
    intro j
    rw [List.getElem?_set]
    by_cases hij : i = j
    · rw [if_pos hij, if_pos hij, if_pos hlt]
    · rw [if_neg hij, if_neg hij]
  refine ⟨?_, ?_, ?_, ?_⟩
  · intro j e hj
    rw [hget j] at hj
    by_cases hij : i = j
    · subst hij
      rw [if_pos rfl] at hj
      cases hj
      exact ha i prev hv
    · rw [if_neg hij] at hj
      exact ha j e hj
  · intro p m hm
    obtain ⟨e, he, hp, hmax⟩ := hmap p m hm
    by_cases him : i = m
    · subst him
      have hep : e = prev := by
        rw [hv] at he
        exact (Option.some.inj he).symm
      subst hep
      refine ⟨{ e with test := { e.test with expected := exp } }, ?_, hp, ?_⟩
      · rw [hget i, if_pos rfl]
      · intro j e' hj hp'
        rw [hget j] at hj
        by_cases hij : i = j
        · omega
        · rw [if_neg hij] at hj
          exact hmax j e' hj hp'
    · refine ⟨e, ?_, hp, ?_⟩
      · rw [hget m, if_neg him]
        exact he
      · intro j e' hj hp'
        rw [hget j] at hj
        by_cases hij : i = j
        · subst hij
          rw [if_pos rfl] at hj
          cases hj
          exact hmax i prev hv hp'
        · rw [if_neg hij] at hj
          exact hmax j e' hj hp'
  · intro j e hj
    rw [hget j] at hj
    by_cases hij : i = j
    · subst hij
      rw [if_pos rfl] at hj
      cases hj
      exact hpres i prev hv
    · rw [if_neg hij] at hj
      exact hpres j e hj
  · intro j e hj hg
    rw [hget j] at hj
    by_cases hij : i = j
    · subst hij
      rw [if_pos rfl] at hj
      cases hj
      exact hglob i prev hv hg
    · rw [if_neg hij] at hj
      exact hglob j e hj hg

/-- `insert` when the path is not yet mapped: plain push. -/
theorem insert_unmapped (s : ExpandedTestSet) (t : Test) (err : Option Error)
    (b : Bool) (hl : lookupIndex s.path_to_index t.path = none) :
    s.insert t err b = s.push t err b := by
  unfold ExpandedTestSet.insert
  rw [hl]

/-- `insert` when the path maps to a glob-origin entry: only that entry's
stored expectation is overwritten, nothing is appended. -/
theorem insert_glob_target (s : ExpandedTestSet) (t : Test) (err : Option Error)
    (b : Bool) (i : Nat) (prev : ExpandedTest)
    (hl : lookupIndex s.path_to_index t.path = some i)
    (hv : s.vec[i]? = some prev) (hg : prev.is_from_glob = true) :
    s.insert t err b =
      { s with vec := s.vec.set i { prev with test := { prev.test with expected := t.expected } } } := by
  unfold ExpandedTestSet.insert
  split
  · rename_i i' heq
    have hii : i' = i := Option.some.inj (heq.symm.trans hl)
    subst hii
    split
    · rename_i prev' heq2
      have hpp : prev' = prev := Option.some.inj (heq2.symm.trans hv)
      subst hpp
      rw [if_pos hg]
    · rename_i heq2
      rw [heq2] at hv
      exact Option.noConfusion hv
  · rename_i heq
    rw [heq] at hl
    exact Option.noConfusion hl

/-- `insert` when the path maps to a literal-origin entry: plain push, the
literal entry is left alone. -/
theorem insert_literal_target (s : ExpandedTestSet) (t : Test) (err : Option Error)
    (b : Bool) (i : Nat) (prev : ExpandedTest)
    (hl : lookupIndex s.path_to_index t.path = some i)
    (hv : s.vec[i]? = some prev) (hg : prev.is_from_glob = false) :
    s.insert t err b = s.push t err b := by
  unfold ExpandedTestSet.insert
  split
  · rename_i i' heq
    have hii : i' = i := Option.some.inj (heq.symm.trans hl)
    subst hii
    split
    · rename_i prev' heq2
      have hpp : prev' = prev := Option.some.inj (heq2.symm.trans hv)
      subst hpp
      rw [if_neg (by simp [hg])]
    · rfl
  · rfl

/-- `insert` preserves the invariant. -/
theorem setWF_insert (s : ExpandedTestSet) (t : Test) (err : Option Error) (b : Bool)
    (h : SetWF s) : SetWF (s.insert t err b) := by
  cases hl : lookupIndex s.path_to_index t.path with
  | none =>
    rw [insert_unmapped s t err b hl]
    refine setWF_push s t err b h fun j e hj hp => ?_
    exact absurd hl (hp ▸ h.2.2.1 j e hj)
  | some i =>
    cases hv : s.vec[i]? with
    | none =>
      obtain ⟨e, he, -, -⟩ := h.2.1 t.path i hl
      rw [hv] at he
      exact Option.noConfusion he
    | some prev =>
      by_cases hg : prev.is_from_glob = true
      · rw [insert_glob_target s t err b i prev hl hv hg]
        exact setWF_set_expected s i prev t.expected h hv
      · rw [insert_literal_target s t err b i prev hl hv (by simpa using hg)]
        refine setWF_push s t err b h fun j e hj hp => ?_
        by_cases hgj : e.is_from_glob = true
        · have hj2 := h.2.2.2 j e hj hgj
          rw [hp, hl] at hj2
          cases hj2
          rw [hv] at hj
          cases hj
          exact absurd hgj hg
        · simpa using hgj

/-- Folding glob-match insertions preserves the invariant. -/
theorem setWF_insert_fold (exp : Expected) :
    ∀ (l : List String) (s : ExpandedTestSet), SetWF s →
      SetWF (l.foldl (fun s p => s.insert ⟨p, exp⟩ none true) s)
  | [], _, hs => hs
  | x :: xs, s, hs =>
    setWF_insert_fold exp xs _ (setWF_insert s ⟨x, exp⟩ none true hs)

/-- One expansion step preserves the invariant. -/
theorem setWF_expandStep (globFn : String → Except Error (List String))
    (s : ExpandedTestSet) (t : Test) (hs : SetWF s) :
    SetWF (expandStep globFn s t) := by
  unfold expandStep
  by_cases hstar : t.path.data.contains '*' = true
  · rw [if_pos hstar]
    cases hres : (globFn t.path).map sortStrings with
    | ok paths => exact setWF_insert_fold t.expected paths s hs
    | error e => exact setWF_insert s t (some e) false hs
  · rw [if_neg hstar]
    exact setWF_insert s t none false hs

/-- The whole expansion fold preserves the invariant. -/
theorem setWF_expand_fold (globFn : String → Except Error (List String)) :
    ∀ (tests : List Test) (s : ExpandedTestSet), SetWF s →
      SetWF (tests.foldl (expandStep globFn) s)
  | [], _, hs => hs
  | t :: ts, s, hs =>
    setWF_expand_fold globFn ts _ (setWF_expandStep globFn s t hs)

/-- The state built by `expand_globs` is well formed. -/
theorem setWF_expand (globFn : String → Except Error (List String))
    (tests : List Test) :
    SetWF (tests.foldl (expandStep globFn) ExpandedTestSet.new) :=
  setWF_expand_fold globFn tests ExpandedTestSet.new setWF_new

/-- C7: the expanded set never holds two glob-origin entries with the same
resolved path; ordinal names are exactly the entry's position (contiguous,
no gaps, no wasted numbers); a glob match landing on a glob-origin entry
only overwrites that entry's stored expectation and appends nothing, while a
glob match landing on a literal-origin entry appends a fresh entry whose
ordinal comes from the count of entries already inserted. -/
theorem expand_globs_dedup :
    (∀ (globFn : String → Except Error (List String)) (tests : List Test)
        (i j : Nat) (ei ej : ExpandedTest),
      (Runner.expand_globs globFn tests)[i]? = some ei →
      (Runner.expand_globs globFn tests)[j]? = some ej →
      ei.is_from_glob = true → ej.is_from_glob = true →
      ei.test.path = ej.test.path → i = j) ∧
    (∀ (globFn : String → Except Error (List String)) (tests : List Test)
        (i : Nat) (e : ExpandedTest),
      (Runner.expand_globs globFn tests)[i]? = some e → e.name = mkName i) ∧
    (∀ (s : ExpandedTestSet) (t : Test) (err : Option Error) (i : Nat)
        (prev : ExpandedTest),
      lookupIndex s.path_to_index t.path = some i →
      s.vec[i]? = some prev → prev.is_from_glob = true →
      (s.insert t err true).vec =
        s.vec.set i { prev with test := { prev.test with expected := t.expected } }) ∧
    (∀ (s : ExpandedTestSet) (t : Test) (err : Option Error) (i : Nat)
        (prev : ExpandedTest),
      lookupIndex s.path_to_index t.path = some i →
      s.vec[i]? = some prev → prev.is_from_glob = false →
      (s.insert t err true).vec =
        s.vec ++ [⟨mkName s.vec.length, t, err, true⟩]) := by
  refine ⟨?_, ?_, ?_, ?_⟩
  · intro globFn tests i j ei ej hi hj hgi hgj hp
    have hwf := setWF_expand globFn tests
    have h1 := hwf.2.2.2 i ei hi hgi
    have h2 := hwf.2.2.2 j ej hj hgj
    rw [hp, h2] at h1
    exact (Option.some.inj h1).symm
  · intro globFn tests i e hi
    exact (setWF_expand globFn tests).1 i e hi
  · intro s t err i prev hl hv hg
    rw [insert_glob_target s t err true i prev hl hv hg]
  · intro s t err i prev hl hv hg
    rw [insert_literal_target s t err true i prev hl hv hg, push_vec]

/-- The glob query used by the expansion witness. -/
def witnessGlobFn : String → Except Error (List String) :=
  fun p =>
    if p == "tests/ui/*.rs" then .ok ["tests/ui/b.rs", "tests/ui/a.rs"] else .ok []

/-- The intent sequence used by the expansion witness: a literal declaration
followed by a glob that also matches the literal's path. -/
def witnessTests : List Test :=
  [⟨"tests/ui/a.rs", Expected.Pass⟩, ⟨"tests/ui/*.rs", Expected.CompileFail⟩]

/-- A one-entry set whose entry is glob-origin. -/
def globSeedSet : ExpandedTestSet :=
  ExpandedTestSet.new.push ⟨"tests/ui/a.rs", Expected.Pass⟩ none true

/-- A one-entry set whose entry is literal-origin. -/
def literalSeedSet : ExpandedTestSet :=
  ExpandedTestSet.new.push ⟨"tests/ui/a.rs", Expected.Pass⟩ none false

/-- Witness for C7 at concrete inputs: the ordinal of entry 1 of the expanded
witness batch, the in-place expectation overwrite on a glob-origin entry, and
the append on a literal-origin entry. -/
theorem expand_globs_dedup_witness :
    ((⟨"trybuild001", ⟨"tests/ui/a.rs", Expected.CompileFail⟩, none, true⟩ :
        ExpandedTest).name = mkName 1) ∧
    (globSeedSet.insert ⟨"tests/ui/a.rs", Expected.CompileFail⟩ none true).vec =
      globSeedSet.vec.set 0
        ⟨mkName 0, ⟨"tests/ui/a.rs", Expected.CompileFail⟩, none, true⟩ ∧
    (literalSeedSet.insert ⟨"tests/ui/a.rs", Expected.CompileFail⟩ none true).vec =
      literalSeedSet.vec ++
        [⟨mkName 1, ⟨"tests/ui/a.rs", Expected.CompileFail⟩, none, true⟩] :=
  ⟨expand_globs_dedup.2.1 witnessGlobFn witnessTests 1
      ⟨"trybuild001", ⟨"tests/ui/a.rs", Expected.CompileFail⟩, none, true⟩ rfl,
   expand_globs_dedup.2.2.1 globSeedSet ⟨"tests/ui/a.rs", Expected.CompileFail⟩ none 0
      ⟨mkName 0, ⟨"tests/ui/a.rs", Expected.Pass⟩, none, true⟩ rfl rfl rfl,
   expand_globs_dedup.2.2.2 literalSeedSet ⟨"tests/ui/a.rs", Expected.CompileFail⟩ none 0
      ⟨mkName 0, ⟨"tests/ui/a.rs", Expected.Pass⟩, none, false⟩ rfl rfl rfl⟩

end Trybuild
